import Mathlib

/-!
Verification of `ConfidentialVoting.sol` (confidential-vote repository).

Shallow embedding of `src/fhevm-hardhat/contracts/ConfidentialVoting.sol`.

Modelling conventions:
* An `euint8` ciphertext handle is modelled by the plaintext value it
  decrypts to, a `Nat` kept below 256; the operations of the FHE capability
  (`FHE.asEuint8`, `FHE.add`, `FHE.eq`, `FHE.select`) are the corresponding
  plaintext operations, with `add` reduced modulo 2^8 as in `euint8`.
* `FHE.fromExternal(encryptedVote, proof)` is a fallible import: an external
  ciphertext is a plaintext value together with a flag saying whether its
  attached validity proof verifies; import fails (the transaction reverts)
  when it does not.
* Contract storage is a `State`: the `proposals` array and the two
  per-proposal/per-address mappings (`encryptedVotes`, `hasVoted`).
  Addresses are modelled by `Nat`.
* Each external function becomes a Lean function over `State`; a `require`
  failure or a failed FHE import becomes `Except.error` with the
  corresponding error, and the EVM transaction semantics (a revert rolls
  every write back) is `step`, which keeps the pre-state on error.
* Events are modelled by returning their payloads: `createProposal` returns
  the id carried by `ProposalCreated`, `makeVoteCountsPublic` returns the
  `(yesCount, noCount)` payload of `VoteCountsMadePublic`.
-/

namespace ConfidentialVoting

/-- An externally supplied `externalEuint8` ciphertext together with its
validity proof: `value` is the plaintext the ciphertext encrypts, and
`proofValid` records whether the attached proof verifies. -/
structure ExternalEuint8 where
  value : Nat
  proofValid : Bool
deriving DecidableEq, Repr

namespace FHE

/-- Capability call `FHE.asEuint8`: a trivial encryption of a plaintext, reduced to 8 bits. -/
def asEuint8 (n : Nat) : Nat := n % 256

/-- Capability call `FHE.add` on `euint8`: homomorphic addition, wrapping modulo 2^8. -/
def add (a b : Nat) : Nat := (a + b) % 256

/-- Capability call `FHE.eq`: homomorphic equality test, yielding an (encrypted) boolean. -/
def eq (a b : Nat) : Bool := a == b

/-- Capability call `FHE.select`: homomorphic conditional selection. -/
def select (c : Bool) (a b : Nat) : Nat := if c then a else b

/-- Capability call `FHE.fromExternal`: verify the proof attached to an external ciphertext
and import it; verification failure reverts the transaction. -/
def fromExternal (e : ExternalEuint8) : Option Nat :=
  if e.proofValid then some (asEuint8 e.value) else none

end FHE

/-- Solidity `enum VoteOption` with members `Yes` and `No`. -/
inductive VoteOption where
  | Yes
  | No
deriving DecidableEq, Repr

/-- Numeric encoding of the enum: `uint8(VoteOption.Yes) = 0` and `uint8(VoteOption.No) = 1`. -/
def VoteOption.toNat : VoteOption → Nat
  | .Yes => 0
  | .No => 1

/-- The `Proposal` struct. `yesCount` and `noCount` are `euint8` handles
(modelled by the plaintexts they decrypt to); `publicYesCount` and
`publicNoCount` are plaintext `uint8` fields. -/
structure Proposal where
  description : String
  yesCount : Nat
  noCount : Nat
  isPublic : Bool
  publicYesCount : Nat
  publicNoCount : Nat
deriving DecidableEq, Repr

/-- Storage of the contract: the `proposals` array plus the two mappings
`encryptedVotes[proposalId][voter]` (a ciphertext handle, `none` while
unset) and `hasVoted[proposalId][voter]` (default `false`). -/
structure State where
  proposals : List Proposal
  encryptedVotes : Nat → Nat → Option Nat
  hasVoted : Nat → Nat → Bool

/-- Freshly deployed contract: no proposals, empty mappings. -/
def initState : State where
  proposals := []
  encryptedVotes := fun _ _ => none
  hasVoted := fun _ _ => false

/-- Errors raised by the `require` statements of the contract and by the
FHE capability, matching the error taxonomy of the spec. -/
inductive VoteError where
  | InvalidProposal
  | AlreadyVoted
  | NotVoted
  | VoteCountsAlreadyPublic
  | ProofVerificationFailed
deriving DecidableEq, Repr

/-- Function `createProposal(description)`: append a proposal with encrypted-zero
counters and `isPublic = false`; the returned `Nat` is the id carried by
the `ProposalCreated` event (`proposals.length - 1` after the push). -/
def createProposal (s : State) (description : String) : State × Nat :=
  let newProposal : Proposal :=
    { description := description
      yesCount := FHE.asEuint8 0
      noCount := FHE.asEuint8 0
      isPublic := false
      publicYesCount := 0
      publicNoCount := 0 }
  let s' : State := { s with proposals := s.proposals ++ [newProposal] }
  (s', s'.proposals.length - 1)

/-- Function `vote(proposalId, encryptedVote, proof)` called by `sender`:
require a valid id, require not already voted, import the external
ciphertext (reverting on proof failure), record the ballot, mark
`hasVoted`, and homomorphically add the selected 1/0 contributions to the
two counters. -/
def vote (s : State) (sender proposalId : Nat) (encryptedVote : ExternalEuint8) :
    Except VoteError State :=
  match s.proposals[proposalId]? with
  | none => .error .InvalidProposal
  | some p =>
    if s.hasVoted proposalId sender then .error .AlreadyVoted
    else
      match FHE.fromExternal encryptedVote with
      | none => .error .ProofVerificationFailed
      | some v =>
        let yes := FHE.asEuint8 VoteOption.Yes.toNat
        let no := FHE.asEuint8 VoteOption.No.toNat
        let one := FHE.asEuint8 1
        let p' : Proposal :=
          { p with
            yesCount := FHE.add p.yesCount (FHE.select (FHE.eq v yes) one (FHE.asEuint8 0))
            noCount := FHE.add p.noCount (FHE.select (FHE.eq v no) one (FHE.asEuint8 0)) }
        .ok { s with
              proposals := s.proposals.set proposalId p'
              encryptedVotes := fun pid a =>
                if pid = proposalId ∧ a = sender then some v else s.encryptedVotes pid a
              hasVoted := fun pid a =>
                if pid = proposalId ∧ a = sender then true else s.hasVoted pid a }

/-- Function `getEncryptedVoteCount(proposalId)`: the two encrypted accumulators. -/
def getEncryptedVoteCount (s : State) (proposalId : Nat) : Except VoteError (Nat × Nat) :=
  match s.proposals[proposalId]? with
  | none => .error .InvalidProposal
  | some p => .ok (p.yesCount, p.noCount)

/-- Function `getMyVote(proposalId)` called by `sender`: the ballot
ciphertext recorded for the caller (the contract additionally grants the caller decryption
permission on it, an FHE-ACL effect outside this model). -/
def getMyVote (s : State) (sender proposalId : Nat) : Except VoteError (Option Nat) :=
  match s.proposals[proposalId]? with
  | none => .error .InvalidProposal
  | some _ =>
    if s.hasVoted proposalId sender then .ok (s.encryptedVotes proposalId sender)
    else .error .NotVoted

/-- Function `proposalCount()`. -/
def proposalCount (s : State) : Nat := s.proposals.length

/-- Function `hasUserVoted(proposalId, voter)`. -/
def hasUserVoted (s : State) (proposalId voter : Nat) : Except VoteError Bool :=
  match s.proposals[proposalId]? with
  | none => .error .InvalidProposal
  | some _ => .ok (s.hasVoted proposalId voter)

/-- Function `makeVoteCountsPublic(proposalId)`: require a valid id and not yet
public, set `isPublic := true`, and emit `VoteCountsMadePublic` with the
literal placeholder payload `(0, 0)` (the contract does not decrypt the
counters nor write `publicYesCount`/`publicNoCount`). The returned pair is
the event payload. -/
def makeVoteCountsPublic (s : State) (proposalId : Nat) :
    Except VoteError (State × Nat × Nat) :=
  match s.proposals[proposalId]? with
  | none => .error .InvalidProposal
  | some p =>
    if p.isPublic then .error .VoteCountsAlreadyPublic
    else
      .ok ({ s with proposals := s.proposals.set proposalId { p with isPublic := true } },
           0, 0)

/-- Function `getPublicVoteCounts(proposalId)`: the plaintext fields, regardless of
the public flag. -/
def getPublicVoteCounts (s : State) (proposalId : Nat) :
    Except VoteError (Nat × Nat × Bool) :=
  match s.proposals[proposalId]? with
  | none => .error .InvalidProposal
  | some p => .ok (p.publicYesCount, p.publicNoCount, p.isPublic)

/-- A mutating transaction submitted to the contract. -/
inductive Op where
  | createOp (description : String)
  | castOp (sender proposalId : Nat) (encryptedVote : ExternalEuint8)
  | publishOp (proposalId : Nat)

/-- EVM transaction semantics: a reverted call leaves storage unchanged. -/
def step (s : State) : Op → State
  | .createOp d => (createProposal s d).1
  | .castOp sender pid ev =>
    match vote s sender pid ev with
    | .ok s' => s'
    | .error _ => s
  | .publishOp pid =>
    match makeVoteCountsPublic s pid with
    | .ok r => r.1
    | .error _ => s

/-- Run a sequence of transactions. -/
def run (s : State) (ops : List Op) : State := ops.foldl step s

/-- Observation: the stored proposal at an id, if any. -/
def proposalAt (s : State) (proposalId : Nat) : Option Proposal :=
  s.proposals[proposalId]?

/-- Observation: decryption of `yesCount` at an id. -/
def yesAt (s : State) (proposalId : Nat) : Option Nat :=
  (proposalAt s proposalId).map Proposal.yesCount

/-- Observation: decryption of `noCount` at an id. -/
def noAt (s : State) (proposalId : Nat) : Option Nat :=
  (proposalAt s proposalId).map Proposal.noCount

/-- Observation: the `isPublic` flag at an id. -/
def isPublicAt (s : State) (proposalId : Nat) : Option Bool :=
  (proposalAt s proposalId).map Proposal.isPublic

/-- A batch of `vote` calls on one proposal, failing as soon as one call
reverts: used to state tally correctness over an arbitrary interleaving of
casts (each list entry is a `(sender, externalCiphertext)` pair, and any
order of the same multiset of casts is some such list). -/
def castSequence (s : State) (proposalId : Nat) (vs : List (Nat × ExternalEuint8)) :
    Except VoteError State :=
  vs.foldlM (fun st av => vote st av.1 proposalId av.2) s

/-- The number of ballots in a batch decrypting to `YES` (0). -/
def yesBallots (vs : List (Nat × ExternalEuint8)) : Nat :=
  (vs.filter fun av => av.2.value % 256 == 0).length

/-- The number of ballots in a batch decrypting to `NO` (1). -/
def noBallots (vs : List (Nat × ExternalEuint8)) : Nat :=
  (vs.filter fun av => av.2.value % 256 == 1).length

/-- The proposal record produced by a successful `vote` whose imported
ciphertext decrypts to `v`: the YES counter gains 1 exactly when `v = 0`,
the NO counter gains 1 exactly when `v = 1`, both modulo 2^8. -/
def afterVoteProposal (p : Proposal) (v : Nat) : Proposal :=
  { p with
    yesCount := (p.yesCount + if v == 0 then 1 else 0) % 256
    noCount := (p.noCount + if v == 1 then 1 else 0) % 256 }

/-- The storage produced by a successful `vote` by `sender` on `proposalId`
whose stored proposal was `p` and whose ciphertext decrypts to `v`. -/
def afterVote (s : State) (sender proposalId : Nat) (p : Proposal) (v : Nat) : State :=
  { s with
    proposals := s.proposals.set proposalId (afterVoteProposal p v)
    encryptedVotes := fun pid a =>
      if pid = proposalId ∧ a = sender then some v else s.encryptedVotes pid a
    hasVoted := fun pid a =>
      if pid = proposalId ∧ a = sender then true else s.hasVoted pid a }

/-- The storage produced by a successful `makeVoteCountsPublic` on
`proposalId` whose stored proposal was `p`. -/
def afterPublish (s : State) (proposalId : Nat) (p : Proposal) : State :=
  { s with proposals := s.proposals.set proposalId { p with isPublic := true } }

/-- The states reached by a sequence of `createProposal` calls. -/
def afterCreates (s : State) : List String → State
  | [] => s
  | d :: rest => afterCreates (createProposal s d).1 rest

/-- The ids announced (via `ProposalCreated`) by a sequence of
`createProposal` calls, in call order. -/
def createdIds (s : State) : List String → List Nat
  | [] => []
  | d :: rest => (createProposal s d).2 :: createdIds (createProposal s d).1 rest

/-! Concrete fixtures for witnesses and counterexamples. -/

/-- A well-formed encrypted YES ballot (plaintext 0, valid proof). -/
def yesBallot : ExternalEuint8 := ⟨0, true⟩

/-- A well-formed encrypted NO ballot (plaintext 1, valid proof). -/
def noBallot : ExternalEuint8 := ⟨1, true⟩

/-- A structurally valid but out-of-domain ballot (plaintext 5). -/
def oddBallot : ExternalEuint8 := ⟨5, true⟩

/-- A ballot whose validity proof does not verify. -/
def badBallot : ExternalEuint8 := ⟨0, false⟩

/-- A fresh contract holding one newly created proposal. -/
def oneProposal : State := (createProposal initState "Adopt proposal X").1

/-- The proposal record stored by `oneProposal` at id 0. -/
def freshProposal : Proposal :=
  { description := "Adopt proposal X"
    yesCount := 0
    noCount := 0
    isPublic := false
    publicYesCount := 0
    publicNoCount := 0 }

/-- State `oneProposal` after `makeVoteCountsPublic(0)` with no votes cast. -/
def publishedEmpty : State := step oneProposal (.publishOp 0)

/-- The proposal record stored by `publishedEmpty` at id 0. -/
def publishedProposal : Proposal := { freshProposal with isPublic := true }

/-- State `oneProposal` after voter 0 cast a YES ballot on proposal 0. -/
def afterFirstVote : State := step oneProposal (.castOp 0 0 yesBallot)

/-- State `afterFirstVote` after voter 1 additionally cast a NO ballot. -/
def afterTwoVotes : State := step afterFirstVote (.castOp 1 0 noBallot)

/-- A batch of two casts: voter 0 YES, voter 1 NO. -/
def smallBatch : List (Nat × ExternalEuint8) := [(0, yesBallot), (1, noBallot)]

/-- 256 distinct voters, each holding a valid YES ballot. -/
def manyYesVoters : List (Nat × ExternalEuint8) :=
  (List.range 256).map fun i => (i, yesBallot)

/-! Helper lemmas about single operations. -/

theorem vote_ok_of {s : State} {sender proposalId : Nat} {ev : ExternalEuint8}
    {p : Proposal} {v : Nat}
    (hp : s.proposals[proposalId]? = some p)
    (hv : s.hasVoted proposalId sender = false)
    (he : FHE.fromExternal ev = some v) :
    vote s sender proposalId ev = .ok (afterVote s sender proposalId p v) := by
  simp [vote, hp, hv, he, FHE.add, FHE.select, FHE.eq, FHE.asEuint8, VoteOption.toNat,
    afterVote, afterVoteProposal]

theorem vote_error_already {s : State} {sender proposalId : Nat} {ev : ExternalEuint8}
    {p : Proposal}
    (hp : s.proposals[proposalId]? = some p)
    (hv : s.hasVoted proposalId sender = true) :
    vote s sender proposalId ev = .error .AlreadyVoted := by
  simp [vote, hp, hv]

theorem vote_ok_elim {s s' : State} {sender proposalId : Nat} {ev : ExternalEuint8}
    (h : vote s sender proposalId ev = .ok s') :
    ∃ p v, s.proposals[proposalId]? = some p ∧
      s.hasVoted proposalId sender = false ∧
      FHE.fromExternal ev = some v ∧
      s' = afterVote s sender proposalId p v := by
  unfold vote at h
  split at h
  · exact absurd h (by simp)
  next p hp =>
    split at h
    · exact absurd h (by simp)
    next hv =>
      split at h
      · exact absurd h (by simp)
      next v he =>
        refine ⟨p, v, hp, by simpa using hv, he, ?_⟩
        injection h with h
        subst h
        simp [FHE.add, FHE.select, FHE.eq, FHE.asEuint8, VoteOption.toNat,
          afterVote, afterVoteProposal]

theorem makeVoteCountsPublic_ok_elim {s : State} {proposalId : Nat}
    {r : State × Nat × Nat}
    (h : makeVoteCountsPublic s proposalId = .ok r) :
    ∃ p, s.proposals[proposalId]? = some p ∧ p.isPublic = false ∧
      r = (afterPublish s proposalId p, 0, 0) := by
  unfold makeVoteCountsPublic at h
  split at h
  · exact absurd h (by simp)
  next p hp =>
    split at h
    · exact absurd h (by simp)
    next hpub =>
      refine ⟨p, hp, by simpa using hpub, ?_⟩
      injection h with h
      exact h.symm

theorem makeVoteCountsPublic_error_already {s : State} {proposalId : Nat} {p : Proposal}
    (hp : s.proposals[proposalId]? = some p) (hpub : p.isPublic = true) :
    makeVoteCountsPublic s proposalId = .error .VoteCountsAlreadyPublic := by
  simp [makeVoteCountsPublic, hp, hpub]

/-! Monotone facts preserved by every transaction. -/

theorem proposalCount_le_step (s : State) (op : Op) :
    proposalCount s ≤ proposalCount (step s op) := by
  cases op with
  | createOp d =>
    simp [step, createProposal, proposalCount]
  | castOp sender pid ev =>
    simp only [step]
    split
    next s' h =>
      obtain ⟨p, v, _, _, _, hs⟩ := vote_ok_elim h
      subst hs
      simp [proposalCount, afterVote]
    next => exact le_rfl
  | publishOp pid =>
    simp only [step]
    split
    next r h =>
      obtain ⟨p, _, _, hs⟩ := makeVoteCountsPublic_ok_elim h
      subst hs
      simp [proposalCount, afterPublish]
    next => exact le_rfl

theorem proposalCount_le_run (s : State) (ops : List Op) :
    proposalCount s ≤ proposalCount (run s ops) := by
  induction ops generalizing s with
  | nil => exact le_rfl
  | cons op ops ih =>
    exact le_trans (proposalCount_le_step s op) (ih (step s op))

theorem hasVoted_step_mono {s : State} {p a : Nat} (op : Op)
    (h : s.hasVoted p a = true) : (step s op).hasVoted p a = true := by
  cases op with
  | createOp d => simpa [step, createProposal] using h
  | castOp sender pid ev =>
    simp only [step]
    split
    next s' hv =>
      obtain ⟨q, v, _, _, _, hs⟩ := vote_ok_elim hv
      subst hs
      simp only [afterVote]
      split
      · rfl
      · exact h
    next => exact h
  | publishOp pid =>
    simp only [step]
    split
    next r hp =>
      obtain ⟨q, _, _, hs⟩ := makeVoteCountsPublic_ok_elim hp
      subst hs
      exact h
    next => exact h

theorem hasVoted_run_mono {s : State} {p a : Nat} (ops : List Op)
    (h : s.hasVoted p a = true) : (run s ops).hasVoted p a = true := by
  induction ops generalizing s with
  | nil => exact h
  | cons op ops ih => exact ih (hasVoted_step_mono op h)

theorem isPublicAt_step_mono {s : State} {p : Nat} (op : Op)
    (h : isPublicAt s p = some true) : isPublicAt (step s op) p = some true := by
  obtain ⟨prop, hp, hpub⟩ : ∃ prop, s.proposals[p]? = some prop ∧ prop.isPublic = true := by
    unfold isPublicAt proposalAt at h
    cases hg : s.proposals[p]? with
    | none => rw [hg] at h; cases h
    | some q => rw [hg] at h; exact ⟨q, rfl, by simpa using h⟩
  have hlt : p < s.proposals.length := (List.getElem?_eq_some.mp hp).1
  cases op with
  | createOp d =>
    simp only [step, createProposal, isPublicAt, proposalAt]
    rw [List.getElem?_append_left hlt, hp]
    simpa using hpub
  | castOp sender pid ev =>
    simp only [step]
    split
    next s' hv =>
      obtain ⟨q, v, hq, _, _, hs⟩ := vote_ok_elim hv
      subst hs
      simp only [isPublicAt, proposalAt, afterVote]
      rcases eq_or_ne pid p with rfl | hne
      · rw [List.getElem?_set_self hlt]
        rw [hp] at hq
        injection hq with hq
        subst hq
        simpa using hpub
      · rw [List.getElem?_set_ne hne, hp]
        simpa using hpub
    next => exact h
  | publishOp pid =>
    simp only [step]
    split
    next r hmp =>
      obtain ⟨q, hq, _, hs⟩ := makeVoteCountsPublic_ok_elim hmp
      subst hs
      simp only [isPublicAt, proposalAt, afterPublish]
      rcases eq_or_ne pid p with rfl | hne
      · rw [List.getElem?_set_self hlt]
        simp
      · rw [List.getElem?_set_ne hne, hp]
        simpa using hpub
    next => exact h

theorem isPublicAt_run_mono {s : State} {p : Nat} (ops : List Op)
    (h : isPublicAt s p = some true) : isPublicAt (run s ops) p = some true := by
  induction ops generalizing s with
  | nil => exact h
  | cons op ops ih => exact ih (isPublicAt_step_mono op h)

/-! Tally accumulation over a batch of casts. -/

theorem castSequence_ok (p : Nat) (vs : List (Nat × ExternalEuint8)) :
    ∀ (s : State) (prop : Proposal),
      s.proposals[p]? = some prop →
      prop.yesCount < 256 → prop.noCount < 256 →
      (vs.map Prod.fst).Nodup →
      (∀ av ∈ vs, s.hasVoted p av.1 = false) →
      (∀ av ∈ vs, av.2.proofValid = true) →
      ∃ s' prop', castSequence s p vs = .ok s' ∧
        s'.proposals[p]? = some prop' ∧
        prop'.yesCount = (prop.yesCount + yesBallots vs) % 256 ∧
        prop'.noCount = (prop.noCount + noBallots vs) % 256 := by
  induction vs with
  | nil =>
    intro s prop hp hyc hnc _ _ _
    exact ⟨s, prop, rfl, hp, by simp [yesBallots, Nat.mod_eq_of_lt hyc],
      by simp [noBallots, Nat.mod_eq_of_lt hnc]⟩
  | cons av rest ih =>
    intro s prop hp hyc hnc hnd hfresh hvalid
    obtain ⟨a, e⟩ := av
    rw [List.map_cons] at hnd
    obtain ⟨hnotin, hndrest⟩ := List.nodup_cons.mp hnd
    have hfa : s.hasVoted p a = false := hfresh (a, e) (List.mem_cons_self _ _)
    have hpv : e.proofValid = true := hvalid (a, e) (List.mem_cons_self _ _)
    have hea : FHE.fromExternal e = some (e.value % 256) := by
      simp [FHE.fromExternal, FHE.asEuint8, hpv]
    have hlt : p < s.proposals.length := (List.getElem?_eq_some.mp hp).1
    have hvote := vote_ok_of hp hfa hea
    have hp1 : (afterVote s a p prop (e.value % 256)).proposals[p]? =
        some (afterVoteProposal prop (e.value % 256)) := by
      simp only [afterVote]
      exact List.getElem?_set_self hlt
    have hyc1 : (afterVoteProposal prop (e.value % 256)).yesCount < 256 := by
      simp only [afterVoteProposal]
      exact Nat.mod_lt _ (by norm_num)
    have hnc1 : (afterVoteProposal prop (e.value % 256)).noCount < 256 := by
      simp only [afterVoteProposal]
      exact Nat.mod_lt _ (by norm_num)
    have hfresh1 : ∀ bv ∈ rest, (afterVote s a p prop (e.value % 256)).hasVoted p bv.1 = false := by
      intro bv hm
      have hba : bv.1 ≠ a := fun hb => hnotin (List.mem_map.mpr ⟨bv, hm, hb⟩)
      simp only [afterVote]
      simp only [hba, if_neg, and_false, if_false, true_and, eq_self_iff_true]
      exact hfresh bv (List.mem_cons_of_mem _ hm)
    have hvalid1 : ∀ bv ∈ rest, bv.2.proofValid = true := fun bv hm =>
      hvalid bv (List.mem_cons_of_mem _ hm)
    obtain ⟨s', prop', hrun, hp', hy', hn'⟩ :=
      ih (afterVote s a p prop (e.value % 256)) (afterVoteProposal prop (e.value % 256))
        hp1 hyc1 hnc1 hndrest hfresh1 hvalid1
    refine ⟨s', prop', ?_, hp', ?_, ?_⟩
    · have : castSequence s p ((a, e) :: rest) =
          castSequence (afterVote s a p prop (e.value % 256)) p rest := by
        simp only [castSequence, List.foldlM_cons, hvote]
        rfl
      rw [this, hrun]
    · rw [hy']
      have hcnt : yesBallots ((a, e) :: rest) =
          (if e.value % 256 == 0 then 1 else 0) + yesBallots rest := by
        simp only [yesBallots, List.filter_cons]
        cases heq : (e.value % 256 == 0) <;> simp [heq, Nat.add_comm]
      rw [hcnt]
      simp only [afterVoteProposal]
      rw [Nat.mod_add_mod, Nat.add_assoc]
    · rw [hn']
      have hcnt : noBallots ((a, e) :: rest) =
          (if e.value % 256 == 1 then 1 else 0) + noBallots rest := by
        simp only [noBallots, List.filter_cons]
        cases heq : (e.value % 256 == 1) <;> simp [heq, Nat.add_comm]
      rw [hcnt]
      simp only [afterVoteProposal]
      rw [Nat.mod_add_mod, Nat.add_assoc]

/-! Sequences of proposal creations. -/

theorem createdIds_spec (ds : List String) :
    ∀ s : State,
      createdIds s ds = List.range' s.proposals.length ds.length ∧
      (afterCreates s ds).proposals.length = s.proposals.length + ds.length := by
  induction ds with
  | nil => intro s; exact ⟨rfl, rfl⟩
  | cons d rest ih =>
    intro s
    have hid : (createProposal s d).2 = s.proposals.length := by
      simp [createProposal]
    have hlen : (createProposal s d).1.proposals.length = s.proposals.length + 1 := by
      simp [createProposal]
    constructor
    · rw [createdIds, (ih _).1, hid, hlen, List.length_cons, List.range'_succ]
    · rw [afterCreates, (ih _).2, hlen, List.length_cons]
      omega

/-! Theorems settling the claims. -/

/-- Claim C9 (confirmed): dense sequential ids. Each `createProposal` call
announces id `proposalCount` (the pre-call count) and increments the
count by one, and the ids announced by the first n creations on a fresh
contract are exactly `0, 1, ..., n-1`, so the nth call (1-indexed) yields
id n−1, `proposalCount()` after n creations is n, and ids are contiguous,
0-based, without gaps or reuse. -/
theorem C9_dense_sequential_ids (ds : List String) (s : State) (d : String) :
    createdIds initState ds = List.range ds.length ∧
    proposalCount (afterCreates initState ds) = ds.length ∧
    (createProposal s d).2 = proposalCount s ∧
    proposalCount (createProposal s d).1 = proposalCount s + 1 := by
  refine ⟨?_, ?_, by simp [createProposal, proposalCount], by simp [createProposal, proposalCount]⟩
  · rw [(createdIds_spec ds initState).1, List.range_eq_range']
    rfl
  · rw [proposalCount, (createdIds_spec ds initState).2]
    simp [initState]

/-- Claim C1 (confirmed): at-most-once voting. After a successful
`vote(p, ...)` by voter `v`, any later `vote` attempt by `v` on `p` — after
an arbitrary further sequence of transactions — fails with `AlreadyVoted`,
and that failed transaction leaves the storage (counters and the stored
ballot record of `v` included) exactly as it was. -/
theorem C1_at_most_once_voting (s : State) (v p : Nat) (ev : ExternalEuint8) (s₁ : State)
    (h : vote s v p ev = .ok s₁) (ops : List Op) (ev' : ExternalEuint8) :
    vote (run s₁ ops) v p ev' = .error .AlreadyVoted ∧
    step (run s₁ ops) (.castOp v p ev') = run s₁ ops := by
  obtain ⟨prop, val, hp, hfv, he, hs⟩ := vote_ok_elim h
  have hlt : p < s.proposals.length := (List.getElem?_eq_some.mp hp).1
  have hv1 : s₁.hasVoted p v = true := by
    subst hs
    simp [afterVote]
  have hlen1 : p < s₁.proposals.length := by
    subst hs
    simpa [afterVote] using hlt
  have hv2 : (run s₁ ops).hasVoted p v = true := hasVoted_run_mono ops hv1
  have hlen2 : p < (run s₁ ops).proposals.length :=
    lt_of_lt_of_le hlen1 (proposalCount_le_run s₁ ops)
  have herr := @vote_error_already (run s₁ ops) v p ev' _ (List.getElem?_eq_getElem hlen2) hv2
  exact ⟨herr, by simp [step, herr]⟩

/-- Witness for C1 at a concrete input: voter 0 cast a YES ballot on
proposal 0; after one further unrelated transaction a second attempt fails
with `AlreadyVoted` and changes nothing. -/
theorem C1_witness :
    vote (run afterFirstVote [.createOp "another"]) 0 0 noBallot = .error .AlreadyVoted ∧
    step (run afterFirstVote [.createOp "another"]) (.castOp 0 0 noBallot) =
      run afterFirstVote [.createOp "another"] :=
  C1_at_most_once_voting oneProposal 0 0 yesBallot afterFirstVote (by rfl)
    [.createOp "another"] noBallot

/-- Claim C8 (confirmed): atomicity of mutations. `createProposal` never
fails; whenever `vote` fails — for any of its reasons, proof-verification
failure included — or `makeVoteCountsPublic` fails, the transaction leaves
the storage exactly equal to the starting state: no ballot record, no
counter update, no flag flip. -/
theorem C8_atomicity (s : State) (sender pid : Nat) (ev : ExternalEuint8) :
    (∀ e, vote s sender pid ev = .error e → step s (.castOp sender pid ev) = s) ∧
    (∀ e, makeVoteCountsPublic s pid = .error e → step s (.publishOp pid) = s) := by
  constructor <;> intro e he <;> simp [step, he]

/-- Witness for C8 at concrete inputs: a cast whose proof verification
fails, and a publish on an out-of-range id, both leave the state intact. -/
theorem C8_witness :
    step oneProposal (.castOp 0 0 badBallot) = oneProposal ∧
    step initState (.publishOp 0) = initState :=
  ⟨(C8_atomicity oneProposal 0 0 badBallot).1 .ProofVerificationFailed rfl,
   (C8_atomicity initState 0 0 badBallot).2 .InvalidProposal rfl⟩

/-- Claim C6 (confirmed): range checking everywhere. Every operation taking
a proposalId — `vote`, `makeVoteCountsPublic`, `getEncryptedVoteCount`,
`getMyVote`, `getPublicVoteCounts`, `hasUserVoted` — fails with
`InvalidProposal` when `proposalId ≥ proposalCount`, and the mutating ones
leave the state unchanged in that case. -/
theorem C6_range_checking (s : State) (pid sender voter : Nat) (ev : ExternalEuint8)
    (h : proposalCount s ≤ pid) :
    vote s sender pid ev = .error .InvalidProposal ∧
    makeVoteCountsPublic s pid = .error .InvalidProposal ∧
    getEncryptedVoteCount s pid = .error .InvalidProposal ∧
    getMyVote s sender pid = .error .InvalidProposal ∧
    getPublicVoteCounts s pid = .error .InvalidProposal ∧
    hasUserVoted s pid voter = .error .InvalidProposal ∧
    step s (.castOp sender pid ev) = s ∧
    step s (.publishOp pid) = s := by
  have hn : s.proposals[pid]? = none := List.getElem?_eq_none h
  refine ⟨?_, ?_, ?_, ?_, ?_, ?_, ?_, ?_⟩
  · simp [vote, hn]
  · simp [makeVoteCountsPublic, hn]
  · simp [getEncryptedVoteCount, hn]
  · simp [getMyVote, hn]
  · simp [getPublicVoteCounts, hn]
  · simp [hasUserVoted, hn]
  · simp [step, vote, hn]
  · simp [step, makeVoteCountsPublic, hn]

/-- Witness for C6 at a concrete input: id 5 with a single proposal (the
invalid-id scenario of the spec). -/
theorem C6_witness :
    vote oneProposal 0 5 yesBallot = .error .InvalidProposal ∧
    hasUserVoted oneProposal 5 0 = .error .InvalidProposal ∧
    getPublicVoteCounts oneProposal 5 = .error .InvalidProposal := by
  have h := C6_range_checking oneProposal 5 0 0 yesBallot (by decide)
  exact ⟨h.1, h.2.2.2.2.2.1, h.2.2.2.2.1⟩

/-- Claim C5 (confirmed): publish is one-way. A successful
`makeVoteCountsPublic(p)` leaves `isPublic = true`; once `isPublic` is
true every further `makeVoteCountsPublic(p)` fails with
`VoteCountsAlreadyPublic`; and no sequence of transactions ever resets
`isPublic` to false. -/
theorem C5_publish_one_way (s : State) (p : Nat) (prop : Proposal)
    (hp : s.proposals[p]? = some prop) :
    (∀ r, makeVoteCountsPublic s p = .ok r → isPublicAt r.1 p = some true) ∧
    (prop.isPublic = true → makeVoteCountsPublic s p = .error .VoteCountsAlreadyPublic) ∧
    (prop.isPublic = true → ∀ ops, isPublicAt (run s ops) p = some true) := by
  have hlt : p < s.proposals.length := (List.getElem?_eq_some.mp hp).1
  refine ⟨?_, ?_, ?_⟩
  · intro r hr
    obtain ⟨q, hq, _, hrq⟩ := makeVoteCountsPublic_ok_elim hr
    subst hrq
    simp only [isPublicAt, proposalAt, afterPublish]
    rw [List.getElem?_set_self hlt]
    simp
  · intro hpub
    exact makeVoteCountsPublic_error_already hp hpub
  · intro hpub ops
    exact isPublicAt_run_mono ops (by simp [isPublicAt, proposalAt, hp, hpub])

/-- Witness for C5 at a concrete input: the first publish on proposal 0
sets the flag, a second publish fails, and the flag survives a later
transaction. -/
theorem C5_witness :
    isPublicAt publishedEmpty 0 = some true ∧
    makeVoteCountsPublic publishedEmpty 0 = .error .VoteCountsAlreadyPublic ∧
    isPublicAt (run publishedEmpty [.castOp 0 0 yesBallot]) 0 = some true :=
  ⟨(C5_publish_one_way oneProposal 0 freshProposal rfl).1 (publishedEmpty, 0, 0) rfl,
   (C5_publish_one_way publishedEmpty 0 publishedProposal rfl).2.1 rfl,
   (C5_publish_one_way publishedEmpty 0 publishedProposal rfl).2.2 rfl
     [.castOp 0 0 yesBallot]⟩

/-- Counterexample to claim C3 as stated: proposal 0 is in the Public
state, yet a `vote` by a fresh voter still succeeds and changes
`yesCount` from 0 to 1 — the Public state does not stop counting. -/
theorem C3_counterexample :
    isPublicAt publishedEmpty 0 = some true ∧
    vote publishedEmpty 0 0 yesBallot = .ok (step publishedEmpty (.castOp 0 0 yesBallot)) ∧
    yesAt publishedEmpty 0 = some 0 ∧
    yesAt (step publishedEmpty (.castOp 0 0 yesBallot)) 0 = some 1 :=
  ⟨rfl, rfl, rfl, rfl⟩

/-- Claim C3 amended: the Public state is terminal for the flag but not
for counting. Once `p` is Public, `isPublic` stays true, but `vote` is not
gated on it: a valid cast by a fresh voter on a Public proposal still
succeeds and still updates `yesCount`/`noCount` exactly as before
publication. -/
theorem C3_amended_public_not_terminal_for_counting (s : State) (p : Nat) (prop : Proposal)
    (a : Nat) (ev : ExternalEuint8) (v : Nat)
    (hp : s.proposals[p]? = some prop)
    (hpub : prop.isPublic = true)
    (hv : s.hasVoted p a = false)
    (he : FHE.fromExternal ev = some v) :
    vote s a p ev = .ok (afterVote s a p prop v) ∧
    isPublicAt (afterVote s a p prop v) p = some true ∧
    yesAt (afterVote s a p prop v) p = some ((prop.yesCount + if v == 0 then 1 else 0) % 256) ∧
    noAt (afterVote s a p prop v) p = some ((prop.noCount + if v == 1 then 1 else 0) % 256) := by
  have hlt : p < s.proposals.length := (List.getElem?_eq_some.mp hp).1
  refine ⟨vote_ok_of hp hv he, ?_, ?_, ?_⟩ <;>
    simp [isPublicAt, yesAt, noAt, proposalAt, afterVote, afterVoteProposal,
      List.getElem?_set_self hlt, hpub]

/-- Witness for the amended C3 at a concrete input: a YES cast on the
already-public proposal 0 succeeds, keeps the flag, and bumps the YES
counter. -/
theorem C3_witness :
    vote publishedEmpty 0 0 yesBallot =
      .ok (afterVote publishedEmpty 0 0 publishedProposal 0) ∧
    isPublicAt (afterVote publishedEmpty 0 0 publishedProposal 0) 0 = some true ∧
    yesAt (afterVote publishedEmpty 0 0 publishedProposal 0) 0 =
      some ((publishedProposal.yesCount + if 0 == 0 then 1 else 0) % 256) ∧
    noAt (afterVote publishedEmpty 0 0 publishedProposal 0) 0 =
      some ((publishedProposal.noCount + if 0 == 1 then 1 else 0) % 256) :=
  C3_amended_public_not_terminal_for_counting publishedEmpty 0 publishedProposal 0
    yesBallot 0 rfl rfl rfl rfl

/-- Claim C7 (confirmed): out-of-domain ballots do not corrupt tallies. A
cast whose verified ciphertext decrypts to a value that is neither YES (0)
nor NO (1) succeeds — `hasVoted` becomes true and the ciphertext is
recorded as the ballot of the voter — but both decrypted counters keep their
previous values. -/
theorem C7_out_of_domain_ballot (s : State) (p a : Nat) (ev : ExternalEuint8)
    (v : Nat) (prop : Proposal)
    (hp : s.proposals[p]? = some prop)
    (hv : s.hasVoted p a = false)
    (he : FHE.fromExternal ev = some v)
    (hv0 : v ≠ 0) (hv1 : v ≠ 1)
    (hyc : prop.yesCount < 256) (hnc : prop.noCount < 256) :
    vote s a p ev = .ok (afterVote s a p prop v) ∧
    (afterVote s a p prop v).hasVoted p a = true ∧
    (afterVote s a p prop v).encryptedVotes p a = some v ∧
    yesAt (afterVote s a p prop v) p = yesAt s p ∧
    noAt (afterVote s a p prop v) p = noAt s p := by
  have hlt : p < s.proposals.length := (List.getElem?_eq_some.mp hp).1
  have h0 : (v == 0) = false := beq_eq_false_iff_ne.mpr hv0
  have h1 : (v == 1) = false := beq_eq_false_iff_ne.mpr hv1
  refine ⟨vote_ok_of hp hv he, by simp [afterVote], by simp [afterVote], ?_, ?_⟩
  · simp [yesAt, proposalAt, afterVote, afterVoteProposal,
      List.getElem?_set_self hlt, hp, h0, Nat.mod_eq_of_lt hyc]
  · simp [noAt, proposalAt, afterVote, afterVoteProposal,
      List.getElem?_set_self hlt, hp, h1, Nat.mod_eq_of_lt hnc]

/-- Witness for C7 at a concrete input: a valid ballot decrypting to 5 on
a fresh proposal marks the voter but leaves both counters at 0. -/
theorem C7_witness :
    vote oneProposal 0 0 oddBallot = .ok (afterVote oneProposal 0 0 freshProposal 5) ∧
    (afterVote oneProposal 0 0 freshProposal 5).hasVoted 0 0 = true ∧
    (afterVote oneProposal 0 0 freshProposal 5).encryptedVotes 0 0 = some 5 ∧
    yesAt (afterVote oneProposal 0 0 freshProposal 5) 0 = yesAt oneProposal 0 ∧
    noAt (afterVote oneProposal 0 0 freshProposal 5) 0 = noAt oneProposal 0 :=
  C7_out_of_domain_ballot oneProposal 0 0 oddBallot 5 freshProposal rfl rfl rfl
    (by decide) (by decide) (by decide) (by decide)

set_option maxRecDepth 10000

/-- Counterexample to claim C2 as stated: 256 distinct voters cast valid
YES ballots on a fresh proposal (N = 256, M = 0); every cast succeeds, yet
`yesCount` decrypts to 0, not to N = 256 — the `euint8` accumulator has
wrapped around. -/
theorem C2_counterexample :
    yesBallots manyYesVoters = 256 ∧
    (castSequence oneProposal 0 manyYesVoters).toOption.bind (fun s => yesAt s 0) = some 0 ∧
    (some 0 : Option Nat) ≠ some 256 := by
  refine ⟨by decide, by decide, by decide⟩

/-- Claim C2 amended: tally correctness modulo 2^8. If distinct fresh
voters cast verified ballots on proposal `p` in any order, of which N
decrypt to YES (0) and M to NO (1), then `yesCount` and `noCount` decrypt
to `(yesCount₀ + N) % 256` and `(noCount₀ + M) % 256` — exactly N and M
from a fresh proposal whenever N, M < 256, the extra `% 256` being forced
by the 8-bit accumulators. -/
theorem C2_amended_tally_mod_256 (s : State) (p : Nat) (prop : Proposal)
    (vs : List (Nat × ExternalEuint8))
    (hp : s.proposals[p]? = some prop)
    (hyc : prop.yesCount < 256) (hnc : prop.noCount < 256)
    (hnd : (vs.map Prod.fst).Nodup)
    (hfresh : ∀ av ∈ vs, s.hasVoted p av.1 = false)
    (hvalid : ∀ av ∈ vs, av.2.proofValid = true) :
    ∃ s' prop', castSequence s p vs = .ok s' ∧
      s'.proposals[p]? = some prop' ∧
      prop'.yesCount = (prop.yesCount + yesBallots vs) % 256 ∧
      prop'.noCount = (prop.noCount + noBallots vs) % 256 :=
  castSequence_ok p vs s prop hp hyc hnc hnd hfresh hvalid

/-- Witness for the amended C2 at a concrete input: one YES and one NO
ballot on a fresh proposal decrypt to counts (1, 1). -/
theorem C2_witness :
    ∃ s' prop', castSequence oneProposal 0 smallBatch = .ok s' ∧
      s'.proposals[0]? = some prop' ∧
      prop'.yesCount = (freshProposal.yesCount + yesBallots smallBatch) % 256 ∧
      prop'.noCount = (freshProposal.noCount + noBallots smallBatch) % 256 :=
  C2_amended_tally_mod_256 oneProposal 0 freshProposal smallBatch rfl (by decide)
    (by decide) (by decide) (by decide) (by decide)

/-- Claim C10 (confirmed): counter wraparound. The accumulators are 8-bit,
so 256 valid YES ballots by distinct fresh voters bring `yesCount` back to
its starting decrypted value (0 on a fresh proposal) with every cast
succeeding and no error signalled, and `noCount` likewise keeps its value
(symmetrically for NO ballots and `noCount`). -/
theorem C10_counter_wraparound (s : State) (p : Nat) (prop : Proposal)
    (vs : List (Nat × ExternalEuint8))
    (hp : s.proposals[p]? = some prop)
    (hyc : prop.yesCount < 256) (hnc : prop.noCount < 256)
    (hnd : (vs.map Prod.fst).Nodup)
    (hfresh : ∀ av ∈ vs, s.hasVoted p av.1 = false)
    (hyes : ∀ av ∈ vs, av.2 = yesBallot)
    (hlen : vs.length = 256) :
    ∃ s' prop', castSequence s p vs = .ok s' ∧
      s'.proposals[p]? = some prop' ∧
      prop'.yesCount = prop.yesCount ∧
      prop'.noCount = prop.noCount := by
  have hvalid : ∀ av ∈ vs, av.2.proofValid = true := fun av hm => by
    rw [hyes av hm]
    rfl
  obtain ⟨s', prop', h1, h2, h3, h4⟩ :=
    castSequence_ok p vs s prop hp hyc hnc hnd hfresh hvalid
  have hyb : yesBallots vs = 256 := by
    have hfe : vs.filter (fun av => av.2.value % 256 == 0) = vs :=
      List.filter_eq_self.mpr fun av hm => by rw [hyes av hm]; rfl
    rw [yesBallots, hfe, hlen]
  have hnb : noBallots vs = 0 := by
    have hfe : vs.filter (fun av => av.2.value % 256 == 1) = [] :=
      List.filter_eq_nil_iff.mpr fun av hm => by rw [hyes av hm]; decide
    rw [noBallots, hfe]
    rfl
  refine ⟨s', prop', h1, h2, ?_, ?_⟩
  · rw [h3, hyb]
    omega
  · rw [h4, hnb]
    omega

/-- Witness for C10 at a concrete input: the 256 distinct YES voters on a
fresh proposal leave `yesCount` decrypting to 0 again. -/
theorem C10_witness :
    ∃ s' prop', castSequence oneProposal 0 manyYesVoters = .ok s' ∧
      s'.proposals[0]? = some prop' ∧
      prop'.yesCount = freshProposal.yesCount ∧
      prop'.noCount = freshProposal.noCount :=
  C10_counter_wraparound oneProposal 0 freshProposal manyYesVoters rfl (by decide)
    (by decide) (by decide) (by decide) (by decide) (by decide)

/-- Claim C4 (code bug): publication does not expose the real counts. In
the scenario one YES (voter 0) and one NO (voter 1) ballot on proposal 0 —
decrypted tallies (1, 1) — `makeVoteCountsPublic(0)` succeeds but emits
`VoteCountsMadePublic` with the placeholder payload (0, 0) and never
writes `publicYesCount`/`publicNoCount`, so `getPublicVoteCounts(0)`
returns (0, 0, true) instead of the (1, 1, true) the claim requires. -/
theorem C4_publication_placeholder_counts :
    (vote oneProposal 0 0 yesBallot).toOption.isSome = true ∧
    (vote afterFirstVote 1 0 noBallot).toOption.isSome = true ∧
    yesAt afterTwoVotes 0 = some 1 ∧
    noAt afterTwoVotes 0 = some 1 ∧
    makeVoteCountsPublic afterTwoVotes 0 = .ok (step afterTwoVotes (.publishOp 0), 0, 0) ∧
    getPublicVoteCounts (step afterTwoVotes (.publishOp 0)) 0 = .ok (0, 0, true) ∧
    (getPublicVoteCounts (step afterTwoVotes (.publishOp 0)) 0).toOption ≠ some (1, 1, true) := by
  refine ⟨rfl, rfl, rfl, rfl, rfl, rfl, by decide⟩

end ConfidentialVoting
